import Mathlib

/-!
Verification of the concurrency-core specification of the notes repository
against the code fragments it was written from:
`threadsafe_queue` (sync_operations.md), `hierarchical_mutex`
(sharing_data.md), the `data_ready` atomic publish flag
(memory_model_atomic_types.md), and the spec-described
CompletionChannel / WorkerPool / shutdown semantics.
-/

namespace TSQueue

/-- Embedding of `threadsafe_queue<T>` from
`src/cpp_concurrency_in_action_2nd/sync_operations.md` (lines 104-163):
the protected `std::queue<T> data_queue`, mutated only under the lock.
The mutex and condition variable serialize operations; a sequential
trace of operations models any single-consumer execution. -/
structure threadsafe_queue (T : Type) where
  data_queue : List T
deriving Repr, DecidableEq

/-- `push`: `data_queue.push(new_value)` appends at the tail, then
`data_cond.notify_one()`. -/
def push {T : Type} (q : threadsafe_queue T) (new_value : T) : threadsafe_queue T :=
  ⟨q.data_queue ++ [new_value]⟩

/-- `try_pop`: under the lock, if the queue is empty return failure;
otherwise take `data_queue.front()` and `data_queue.pop()`.
`wait_and_pop` is the same consumption step, reached only once the
condition-wait predicate `!data_queue.empty()` holds. -/
def try_pop {T : Type} (q : threadsafe_queue T) : Option (T × threadsafe_queue T) :=
  match q.data_queue with
  | [] => none
  | x :: xs => some (x, ⟨xs⟩)

/-- A single-consumer operation trace on the queue. -/
inductive QueueOp (T : Type) where
  | push (v : T)
  | pop
deriving Repr, DecidableEq

/-- Run a trace: a `pop` on an empty queue consumes nothing (the
consumer is blocked in `data_cond.wait` until a later push). Returns
the final queue and the values the consumer received, in order. -/
def runOps {T : Type} : List (QueueOp T) → threadsafe_queue T → threadsafe_queue T × List T
  | [], q => (q, [])
  | QueueOp.push v :: rest, q => runOps rest (push q v)
  | QueueOp.pop :: rest, q =>
      match try_pop q with
      | none => runOps rest q
      | some (x, q1) =>
          let r := runOps rest q1
          (r.1, x :: r.2)

/-- The values appended by the pushes of a trace, in trace order. -/
def pushedValues {T : Type} : List (QueueOp T) → List T
  | [] => []
  | QueueOp.push v :: rest => v :: pushedValues rest
  | QueueOp.pop :: rest => pushedValues rest

end TSQueue

namespace HMutex

/-- `ULONG_MAX`, the initial value of the thread-local
`this_thread_hierarchy_value` (64-bit `unsigned long`). -/
def ULONG_MAX : Nat := 2 ^ 64 - 1

/-- The per-thread state: the thread-local
`hierarchical_mutex::this_thread_hierarchy_value`, initialized to
`ULONG_MAX` (sharing_data.md lines 645-648). -/
structure HThread where
  this_thread_hierarchy_value : Nat
deriving Repr, DecidableEq

/-- A fresh thread holding no locks. -/
def freshThread : HThread := ⟨ULONG_MAX⟩

/-- Embedding of `hierarchical_mutex` from
`src/cpp_concurrency_in_action_2nd/sharing_data.md` (lines 599-643):
the immutable `hierarchy_value`, the per-mutex
`previous_hierarchy_value`, and the `internal_mutex` (modelled by
whether it is currently held). -/
structure hierarchical_mutex where
  hierarchy_value : Nat
  previous_hierarchy_value : Nat
  internal_locked : Bool
deriving Repr, DecidableEq

/-- `explicit hierarchical_mutex(unsigned long value)`:
`previous_hierarchy_value` starts at 0, the internal mutex unlocked. -/
def mkMutex (value : Nat) : hierarchical_mutex :=
  ⟨value, 0, false⟩

inductive LockError where
  | OrderViolation
deriving Repr, DecidableEq

/-- `check_for_hierarchy_violation`: throws when
`this_thread_hierarchy_value <= hierarchy_value`. -/
def check_for_hierarchy_violation (t : HThread) (m : hierarchical_mutex) :
    Except LockError Unit :=
  if t.this_thread_hierarchy_value ≤ m.hierarchy_value then
    Except.error LockError.OrderViolation
  else
    Except.ok ()

/-- `update_hierarchy_value`: saves the thread-local value into
`previous_hierarchy_value`, then records this mutex's level as the
thread-local current level. -/
def update_hierarchy_value (t : HThread) (m : hierarchical_mutex) :
    HThread × hierarchical_mutex :=
  (⟨m.hierarchy_value⟩, { m with previous_hierarchy_value := t.this_thread_hierarchy_value })

/-- `lock()`: check first (fail fast, before ever touching
`internal_mutex`), then take the internal mutex, then update. -/
def lock (t : HThread) (m : hierarchical_mutex) :
    Except LockError (HThread × hierarchical_mutex) :=
  match check_for_hierarchy_violation t m with
  | Except.error e => Except.error e
  | Except.ok () =>
      let m1 := { m with internal_locked := true }
      Except.ok (update_hierarchy_value t m1)

/-- `unlock()`: throws if the thread-local current level differs from
this mutex's level; otherwise restores the saved previous level and
releases the internal mutex. -/
def unlock (t : HThread) (m : hierarchical_mutex) :
    Except LockError (HThread × hierarchical_mutex) :=
  if t.this_thread_hierarchy_value ≠ m.hierarchy_value then
    Except.error LockError.OrderViolation
  else
    Except.ok (⟨m.previous_hierarchy_value⟩, { m with internal_locked := false })

/-- `try_lock()`: same hierarchy check first; then a non-blocking
attempt on the internal mutex, returning `false` on contention without
altering the thread-local state. -/
def try_lock (t : HThread) (m : hierarchical_mutex) :
    Except LockError (Bool × HThread × hierarchical_mutex) :=
  match check_for_hierarchy_violation t m with
  | Except.error e => Except.error e
  | Except.ok () =>
      if m.internal_locked then
        Except.ok (false, t, m)
      else
        let m1 := { m with internal_locked := true }
        let r := update_hierarchy_value t m1
        Except.ok (true, r.1, r.2)

end HMutex

namespace PubFlag

/-- Embedding of the `data_ready` publish flag from
`src/cpp_concurrency_in_action_2nd/memory_model_atomic_types.md`
(lines 200-216): `std::atomic<bool> data_ready(false)`; the writer
performs `data_ready = true` (publish), readers perform
`data_ready.load()` (is_published). The API offers no operation that
stores `false`. -/
inductive FlagOp where
  | publish
  | load
deriving Repr, DecidableEq

/-- The flag value after applying a trace of operations to an initial
value: `publish` stores `true`, `load` does not modify the flag. -/
def flagAfter : List FlagOp → Bool → Bool
  | [], b => b
  | FlagOp.publish :: rest, _ => flagAfter rest true
  | FlagOp.load :: rest, b => flagAfter rest b

/-- `is_published()` is a plain atomic load: it returns the current
value and leaves the flag unchanged (it never blocks,
never mutates). -/
def is_published (b : Bool) : Bool × Bool := (b, b)

end PubFlag

namespace Channel

/-- Modelled from the spec: the repository contains only uses of
`std::promise` / `std::future` (sync_operations.md lines 389-402,
434-438), not their implementation, so `CompletionState` follows the
spec's data model §3: tagged variant `{Pending, Ready(value),
Failed(error)}`, write-once. -/
inductive CompletionState (T E : Type) where
  | Pending
  | Ready (v : T)
  | Failed (e : E)
deriving Repr, DecidableEq

/-- Modelled from the spec: a CompletionChannel is the shared
`CompletionState` plus the count of live `Completer` handles (needed
for abandonment detection, spec §4.4). -/
structure CompletionChannel (T E : Type) where
  state : CompletionState T E
  completers : Nat
deriving Repr, DecidableEq

/-- Errors surfaced by the channel API (spec §7 taxonomy):
`AlreadyCompleted`, `Abandoned`, `TimedOut`, and the task-level error
carried verbatim. -/
inductive ChannelError (E : Type) where
  | AlreadyCompleted
  | Abandoned
  | TimedOut
  | TaskFailed (e : E)
deriving Repr, DecidableEq

/-- Modelled from the spec: `Completer.complete(value)` transitions
Pending → Ready exactly once; a second completion is the caller error
`AlreadyCompleted` and the stored result is not altered. Returns the
call's outcome and the (possibly updated) channel. -/
def complete {T E : Type} (v : T) (ch : CompletionChannel T E) :
    Except (ChannelError E) Unit × CompletionChannel T E :=
  match ch.state with
  | CompletionState.Pending =>
      (Except.ok (), { ch with state := CompletionState.Ready v })
  | _ => (Except.error ChannelError.AlreadyCompleted, ch)

/-- Modelled from the spec: `Completer.fail(error)` transitions
Pending → Failed exactly once; otherwise `AlreadyCompleted`, state
unchanged. -/
def fail {T E : Type} (e : E) (ch : CompletionChannel T E) :
    Except (ChannelError E) Unit × CompletionChannel T E :=
  match ch.state with
  | CompletionState.Pending =>
      (Except.ok (), { ch with state := CompletionState.Failed e })
  | _ => (Except.error ChannelError.AlreadyCompleted, ch)

/-- Modelled from the spec: dropping one `Completer` handle. The state
itself is untouched; abandonment is the condition "no completer left
while still Pending". -/
def dropCompleter {T E : Type} (ch : CompletionChannel T E) : CompletionChannel T E :=
  { ch with completers := ch.completers - 1 }

/-- Modelled from the spec: `Awaiter.wait()`. `none` models a blocked
waiter (state Pending with completers alive); when the state has left
Pending, or every completer is gone while Pending, `wait` returns
within bounded time: the value, the task's error verbatim, or
`Abandoned`. -/
def wait {T E : Type} (ch : CompletionChannel T E) :
    Option (Except (ChannelError E) T) :=
  match ch.state with
  | CompletionState.Ready v => some (Except.ok v)
  | CompletionState.Failed e => some (Except.error (ChannelError.TaskFailed e))
  | CompletionState.Pending =>
      if ch.completers = 0 then some (Except.error ChannelError.Abandoned)
      else none

/-- Modelled from the spec: `Awaiter.wait_for(timeout)` in the case the
state is still Pending at expiry: returns `TimedOut` and leaves the
channel exactly as it was; if the state already left Pending it
returns the stored outcome. -/
def wait_for {T E : Type} (ch : CompletionChannel T E) :
    Except (ChannelError E) T × CompletionChannel T E :=
  match ch.state with
  | CompletionState.Ready v => (Except.ok v, ch)
  | CompletionState.Failed e => (Except.error (ChannelError.TaskFailed e), ch)
  | CompletionState.Pending =>
      if ch.completers = 0 then (Except.error ChannelError.Abandoned, ch)
      else (Except.error ChannelError.TimedOut, ch)

/-- A writer-side operation: a `complete` or a `fail` call. -/
inductive WriteOp (T E : Type) where
  | complete (v : T)
  | fail (e : E)
deriving Repr, DecidableEq

/-- Apply one writer operation. -/
def applyWrite {T E : Type} (op : WriteOp T E) (ch : CompletionChannel T E) :
    Except (ChannelError E) Unit × CompletionChannel T E :=
  match op with
  | WriteOp.complete v => complete v ch
  | WriteOp.fail e => fail e ch

/-- Run a sequence of writer operations, collecting each call's
outcome. -/
def runWrites {T E : Type} : List (WriteOp T E) → CompletionChannel T E →
    List (Except (ChannelError E) Unit) × CompletionChannel T E
  | [], ch => ([], ch)
  | op :: rest, ch =>
      let r := applyWrite op ch
      let rs := runWrites rest r.2
      (r.1 :: rs.1, rs.2)

end Channel

namespace SQueue

/-- Modelled from the spec: the `threadsafe_queue` fragment in src has
no shutdown, so the closed flag and `Closed` error follow spec §4.3:
`shutdown()` marks the queue closed; enqueue then fails immediately;
dequeue drains remaining items before reporting `Closed`. -/
structure TaskQueue (T : Type) where
  items : List T
  closed : Bool
deriving Repr, DecidableEq

inductive QueueError where
  | Closed
deriving Repr, DecidableEq

/-- Modelled from the spec: `enqueue(task)` appends at the tail; if
the queue is shut down it fails immediately with `Closed`, leaving the
queue unchanged. -/
def enqueue {T : Type} (q : TaskQueue T) (v : T) :
    Except QueueError Unit × TaskQueue T :=
  if q.closed then (Except.error QueueError.Closed, q)
  else (Except.ok (), { q with items := q.items ++ [v] })

/-- Modelled from the spec: `shutdown()` marks the queue closed and
wakes all waiters; already-queued items stay. -/
def shutdown {T : Type} (q : TaskQueue T) : TaskQueue T :=
  { q with closed := true }

/-- Modelled from the spec: `dequeue()` takes the front item when one
is present (even after shutdown — drain); on an empty closed queue it
returns `Closed`; `none` models a consumer blocked on an empty open
queue. -/
def dequeue {T : Type} (q : TaskQueue T) :
    Option (Except QueueError T) × TaskQueue T :=
  match q.items with
  | x :: xs => (some (Except.ok x), { q with items := xs })
  | [] =>
      if q.closed then (some (Except.error QueueError.Closed), q)
      else (none, q)

/-- The list of tasks a consumer receives by dequeuing until the queue
is empty, in dequeue order. -/
def drainAll {T : Type} (q : TaskQueue T) : List T :=
  q.items

end SQueue

namespace Worker

/-- The error kinds a task may raise in the scenarios (spec §8). -/
inductive TaskError where
  | DivisionByZero
  | Other
deriving Repr, DecidableEq

/-- Modelled from the spec: a dequeued job is the task's execution
outcome (the value it returns or the error it raises, §4.5/§7)
together with its CompletionChannel. -/
structure Job (T E : Type) where
  task : Except E T
  channel : Channel.CompletionChannel T E

/-- Modelled from the spec: one worker iteration — execute the task
and call `complete` on success or `fail` on a raised error; the error
itself is captured, never propagated out of the loop. -/
def workerStep {T E : Type} (j : Job T E) : Channel.CompletionChannel T E :=
  match j.task with
  | Except.ok v => (Channel.complete v j.channel).2
  | Except.error e => (Channel.fail e j.channel).2

/-- Modelled from the spec: the worker loop processes each dequeued
job in turn and continues with the rest whether or not the task
raised. -/
def workerLoop {T E : Type} : List (Job T E) → List (Channel.CompletionChannel T E)
  | [] => []
  | j :: rest => workerStep j :: workerLoop rest

end Worker

namespace Channel

/-- Modelled from the spec: dropping every live `Completer` handle in
turn (abandonment scenario). -/
def dropAllCompleters {T E : Type} : Nat → CompletionChannel T E → CompletionChannel T E
  | 0, ch => ch
  | k + 1, ch => dropAllCompleters k (dropCompleter ch)

end Channel

namespace SQueue

/-- The outcomes a consumer observes by calling `dequeue` repeatedly
(up to `fuel` calls), stopping if it would block. -/
def drainResults {T : Type} (q : TaskQueue T) : Nat → List (Except QueueError T)
  | 0 => []
  | fuel + 1 =>
      match (dequeue q).1 with
      | some x => x :: drainResults (dequeue q).2 fuel
      | none => []

end SQueue

section Theorems

open TSQueue HMutex PubFlag Channel SQueue Worker

/-- Pops, in the order the consumer received them, followed by the
elements still queued, equal the initial contents followed by the
pushed values in push order. -/
theorem TSQueue.runOps_spec {T : Type} (ops : List (QueueOp T)) (q : threadsafe_queue T) :
    (runOps ops q).2 ++ (runOps ops q).1.data_queue = q.data_queue ++ pushedValues ops := by
  induction ops generalizing q with
  | nil => simp [runOps, pushedValues]
  | cons op rest ih =>
    cases op with
    | push v =>
      simp only [runOps, pushedValues]
      rw [ih]
      simp [push]
    | pop =>
      cases hq : q.data_queue with
      | nil =>
        have hq0 : q = ⟨[]⟩ := by cases q; simp_all
        subst hq0
        simpa [runOps, try_pop, pushedValues] using ih ⟨[]⟩
      | cons x xs =>
        have hq0 : q = ⟨x :: xs⟩ := by cases q; simp_all
        subst hq0
        simp only [runOps, try_pop, pushedValues]
        rw [List.cons_append, ih ⟨xs⟩]
        simp

/-- C1: `threadsafe_queue` is FIFO — for any single-consumer trace of
pushes and pops starting from an empty queue, the values popped, in
pop order, followed by the values still queued, are exactly the pushed
values in push order: dequeue order equals enqueue order, with no
reordering. -/
theorem taskQueue_fifo {T : Type} (ops : List (QueueOp T)) :
    (runOps ops (⟨[]⟩ : threadsafe_queue T)).2
        ++ (runOps ops (⟨[]⟩ : threadsafe_queue T)).1.data_queue
      = pushedValues ops := by
  simpa using TSQueue.runOps_spec ops ⟨[]⟩

/-- C3: `hierarchical_mutex` fails fast on hierarchy violation: with
levels L1 > L2, a thread whose current level is L1 successfully locks
the L2 mutex; a thread whose current level is L2 gets `OrderViolation`
from `lock()` on the L1 mutex — for any state of the underlying
`internal_mutex`, including one already held by another thread, so the
underlying lock is never attempted or blocked on — and likewise for
`try_lock()`, and likewise when the attempted level equals the held
level. -/
theorem lockOrder_failFast (L1 L2 : Nat) (hlt : L2 < L1)
    (t1 t2 : HThread) (m1 m2 : hierarchical_mutex)
    (ht1 : t1.this_thread_hierarchy_value = L1)
    (ht2 : t2.this_thread_hierarchy_value = L2)
    (hm1 : m1.hierarchy_value = L1)
    (hm2 : m2.hierarchy_value = L2) :
    lock t1 m2
        = Except.ok (update_hierarchy_value t1 { m2 with internal_locked := true }) ∧
    lock t2 m1 = Except.error LockError.OrderViolation ∧
    try_lock t2 m1 = Except.error LockError.OrderViolation ∧
    (∀ m : hierarchical_mutex, m.hierarchy_value = L2 →
      lock t2 m = Except.error LockError.OrderViolation) := by
  refine ⟨?_, ?_, ?_, ?_⟩
  · simp [lock, check_for_hierarchy_violation, ht1, hm2, Nat.not_le.mpr hlt]
  · simp [lock, check_for_hierarchy_violation, ht2, hm1, Nat.le_of_lt hlt]
  · simp [try_lock, check_for_hierarchy_violation, ht2, hm1, Nat.le_of_lt hlt]
  · intro m hm
    simp [lock, check_for_hierarchy_violation, ht2, hm]

/-- Witness for C3 at L1 = 2, L2 = 1, with the L1 mutex's internal
lock already held by another thread. -/
theorem lockOrder_failFast_witness :
    lock ⟨1⟩ ⟨2, 0, true⟩ = Except.error LockError.OrderViolation :=
  (lockOrder_failFast 2 1 (by decide) ⟨2⟩ ⟨1⟩ ⟨2, 0, true⟩ ⟨1, 0, false⟩
    rfl rfl rfl rfl).2.1

/-- C9: a balanced acquire-then-release pair on one
`hierarchical_mutex`: when the thread's current level L0 is strictly
above the mutex's level L, `lock()` succeeds, saves L0 into
`previous_hierarchy_value` and sets the thread-local level to L, and
the matching `unlock()` succeeds and restores the thread-local level
to exactly L0 (the original thread state `t`, by structure eta). -/
theorem lockOrder_roundTrip (t : HThread) (m : hierarchical_mutex)
    (h : m.hierarchy_value < t.this_thread_hierarchy_value) :
    lock t m
        = Except.ok (⟨m.hierarchy_value⟩,
            { m with previous_hierarchy_value := t.this_thread_hierarchy_value,
                     internal_locked := true }) ∧
    unlock ⟨m.hierarchy_value⟩
        { m with previous_hierarchy_value := t.this_thread_hierarchy_value,
                 internal_locked := true }
      = Except.ok (t,
          { m with previous_hierarchy_value := t.this_thread_hierarchy_value,
                   internal_locked := false }) := by
  constructor
  · simp [lock, check_for_hierarchy_violation, Nat.not_le.mpr h, update_hierarchy_value]
  · simp [unlock]

/-- Witness for C9 at L0 = 5, L = 3. -/
theorem lockOrder_roundTrip_witness :
    lock ⟨5⟩ (mkMutex 3) = Except.ok (⟨3⟩, ⟨3, 5, true⟩) ∧
    unlock ⟨3⟩ ⟨3, 5, true⟩ = Except.ok (⟨5⟩, ⟨3, 5, false⟩) :=
  lockOrder_roundTrip ⟨5⟩ (mkMutex 3) (by decide)

/-- C10: the thread-local level starts at `ULONG_MAX`, so a fresh
thread can lock any mutex whose level is strictly below `ULONG_MAX`;
but because the violation check uses `<=`, a mutex constructed with
level `ULONG_MAX` can never be acquired: for every thread whose
(unsigned long) level is at most `ULONG_MAX`, both `lock()` and
`try_lock()` on it fail with `OrderViolation`. -/
theorem ulongmax_level_unacquirable :
    freshThread.this_thread_hierarchy_value = ULONG_MAX ∧
    (∀ m : hierarchical_mutex, m.hierarchy_value < ULONG_MAX →
      lock freshThread m
        = Except.ok (update_hierarchy_value freshThread { m with internal_locked := true })) ∧
    (∀ t : HThread, t.this_thread_hierarchy_value ≤ ULONG_MAX →
      ∀ m : hierarchical_mutex, m.hierarchy_value = ULONG_MAX →
        lock t m = Except.error LockError.OrderViolation ∧
        try_lock t m = Except.error LockError.OrderViolation) := by
  refine ⟨rfl, ?_, ?_⟩
  · intro m hm
    simp [lock, check_for_hierarchy_violation, freshThread, Nat.not_le.mpr hm]
  · intro t ht m hm
    constructor
    · simp [lock, check_for_hierarchy_violation, hm, ht]
    · simp [try_lock, check_for_hierarchy_violation, hm, ht]

/-- Witness for C10: a fresh thread locks a level-7 mutex, and a
level-`ULONG_MAX` mutex refuses both a fresh thread and a thread at
level 42. -/
theorem ulongmax_level_unacquirable_witness :
    lock freshThread (mkMutex 7)
      = Except.ok (update_hierarchy_value freshThread ⟨7, 0, true⟩) ∧
    lock freshThread (mkMutex ULONG_MAX) = Except.error LockError.OrderViolation ∧
    try_lock ⟨42⟩ (mkMutex ULONG_MAX) = Except.error LockError.OrderViolation :=
  ⟨ulongmax_level_unacquirable.2.1 (mkMutex 7) (by norm_num [mkMutex, ULONG_MAX]),
   (ulongmax_level_unacquirable.2.2 freshThread (by norm_num [freshThread, ULONG_MAX])
      (mkMutex ULONG_MAX) rfl).1,
   (ulongmax_level_unacquirable.2.2 ⟨42⟩ (by norm_num [ULONG_MAX])
      (mkMutex ULONG_MAX) rfl).2⟩

/-- Once the flag is true, no operation resets it. -/
theorem PubFlag.flagAfter_true (ops : List FlagOp) : flagAfter ops true = true := by
  induction ops with
  | nil => rfl
  | cons op rest ih => cases op <;> simpa [flagAfter] using ih

/-- Traces compose: running a concatenated trace runs the pieces in
order. -/
theorem PubFlag.flagAfter_append (a b : List FlagOp) (x : Bool) :
    flagAfter (a ++ b) x = flagAfter b (flagAfter a x) := by
  induction a generalizing x with
  | nil => rfl
  | cons op rest ih => cases op <;> simp [flagAfter, ih]

/-- C8: the publish flag is monotonic and one-shot: starting from the
initial value `false`, once a trace contains a `publish`, the flag
reads `true` after every continuation of that trace — it never reverts
to `false`, because no operation of the API stores `false`; and
`is_published` is a plain non-mutating (hence non-blocking) load of
the current value. -/
theorem publishFlag_monotonic (pre post : List FlagOp) (h : FlagOp.publish ∈ pre) :
    flagAfter (pre ++ post) false = true ∧
    (∀ b : Bool, is_published (flagAfter (pre ++ post) false) = (b, b) → b = true) := by
  have hpre : ∀ (l : List FlagOp) (x : Bool), FlagOp.publish ∈ l → flagAfter l x = true := by
    intro l
    induction l with
    | nil => intro x hx; cases hx
    | cons op rest ih =>
      intro x hx
      cases op with
      | publish => simpa [flagAfter] using PubFlag.flagAfter_true rest
      | load =>
        have : FlagOp.publish ∈ rest := by simpa using hx
        simpa [flagAfter] using ih x this
  have hall : flagAfter (pre ++ post) false = true := by
    rw [PubFlag.flagAfter_append, hpre pre false h, PubFlag.flagAfter_true]
  refine ⟨hall, ?_⟩
  intro b hb
  have : (flagAfter (pre ++ post) false, flagAfter (pre ++ post) false) = (b, b) := hb
  simpa [hall] using congrArg Prod.fst this.symm

/-- Witness for C8: publish, then two loads. -/
theorem publishFlag_monotonic_witness :
    flagAfter ([FlagOp.publish] ++ [FlagOp.load, FlagOp.load]) false = true :=
  (publishFlag_monotonic [FlagOp.publish] [FlagOp.load, FlagOp.load] (by simp)).1

/-- A write on a channel that has already left Pending fails with
`AlreadyCompleted` and leaves the channel untouched. -/
theorem Channel.applyWrite_notPending {T E : Type} (op : WriteOp T E)
    (ch : CompletionChannel T E) (h : ch.state ≠ CompletionState.Pending) :
    applyWrite op ch = (Except.error ChannelError.AlreadyCompleted, ch) := by
  cases op with
  | complete v =>
    cases hs : ch.state with
    | Pending => exact absurd hs h
    | Ready w => simp [applyWrite, complete, hs]
    | Failed e => simp [applyWrite, complete, hs]
  | fail e =>
    cases hs : ch.state with
    | Pending => exact absurd hs h
    | Ready w => simp [applyWrite, fail, hs]
    | Failed f => simp [applyWrite, fail, hs]

/-- C2: the CompletionState is write-once: the first `complete` (resp.
`fail`) on a Pending channel succeeds and moves the state to
`Ready(value)` (resp. `Failed(error)`); and on any channel that has
left Pending, every subsequent sequence of `complete`/`fail` calls
returns `AlreadyCompleted` for each call and leaves the channel —
stored result included — exactly unchanged. -/
theorem completion_writeOnce {T E : Type} (v : T) (e : E) (n : Nat)
    (ops : List (WriteOp T E)) (ch : CompletionChannel T E)
    (h : ch.state ≠ CompletionState.Pending) :
    complete v (⟨CompletionState.Pending, n⟩ : CompletionChannel T E)
        = (Except.ok (), ⟨CompletionState.Ready v, n⟩) ∧
    fail e (⟨CompletionState.Pending, n⟩ : CompletionChannel T E)
        = (Except.ok (), ⟨CompletionState.Failed e, n⟩) ∧
    runWrites ops ch
        = (ops.map (fun _ => Except.error ChannelError.AlreadyCompleted), ch) := by
  refine ⟨rfl, rfl, ?_⟩
  induction ops with
  | nil => rfl
  | cons op rest ih =>
    simp only [runWrites, Channel.applyWrite_notPending op ch h, List.map, ih]

/-- Witness for C2: a channel completed with 5 rejects a later
`complete 2` and a later `fail`, unchanged. -/
theorem completion_writeOnce_witness :
    runWrites [WriteOp.complete 2, WriteOp.fail 9]
        (⟨CompletionState.Ready 5, 1⟩ : CompletionChannel Nat Nat)
      = ([Except.error ChannelError.AlreadyCompleted,
          Except.error ChannelError.AlreadyCompleted],
         ⟨CompletionState.Ready 5, 1⟩) :=
  (completion_writeOnce 0 0 1 [WriteOp.complete 2, WriteOp.fail 9]
    (⟨CompletionState.Ready 5, 1⟩ : CompletionChannel Nat Nat) (by simp)).2.2

/-- Dropping handles never touches the state and decrements the
handle count. -/
theorem Channel.dropAllCompleters_spec {T E : Type} (k : Nat)
    (ch : CompletionChannel T E) :
    (dropAllCompleters k ch).state = ch.state ∧
    (dropAllCompleters k ch).completers = ch.completers - k := by
  induction k generalizing ch with
  | zero => simp [dropAllCompleters]
  | succ n ih =>
    have h := ih (dropCompleter ch)
    have e : dropAllCompleters (n + 1) ch = dropAllCompleters n (dropCompleter ch) := rfl
    refine ⟨?_, ?_⟩
    · rw [e, h.1]
      rfl
    · rw [e, h.2]
      simp [dropCompleter]
      omega

/-- C4: abandonment is surfaced: if the state is still Pending and all
of the channel's live `Completer` handles are dropped, the resulting
channel has no completer left, is still Pending, and `wait` — whether
the waiter was already blocked or calls later — returns the
`Abandoned` error (a definite outcome, not the blocked `none`). -/
theorem abandonment_surfaced {T E : Type} (ch : CompletionChannel T E)
    (hp : ch.state = CompletionState.Pending) :
    (dropAllCompleters ch.completers ch).completers = 0 ∧
    (dropAllCompleters ch.completers ch).state = CompletionState.Pending ∧
    wait (dropAllCompleters ch.completers ch)
      = some (Except.error ChannelError.Abandoned) := by
  have h := Channel.dropAllCompleters_spec (T := T) (E := E) ch.completers ch
  have hc : (dropAllCompleters ch.completers ch).completers = 0 := by
    rw [h.2]; omega
  have hs : (dropAllCompleters ch.completers ch).state = CompletionState.Pending := by
    rw [h.1, hp]
  exact ⟨hc, hs, by simp [wait, hs, hc]⟩

/-- Witness for C4: a Pending channel with two completer handles,
both dropped. -/
theorem abandonment_surfaced_witness :
    wait (dropAllCompleters 2 (⟨CompletionState.Pending, 2⟩ : CompletionChannel Nat Nat))
      = some (Except.error ChannelError.Abandoned) :=
  (abandonment_surfaced (⟨CompletionState.Pending, 2⟩ : CompletionChannel Nat Nat)
    rfl).2.2

/-- C7: a timed-out `wait_for` preserves the channel: on a Pending
channel with a live completer, `wait_for` returns `TimedOut` with the
channel returned exactly as it was (still Pending, no field modified),
and a later `wait` on the same channel observes the eventual outcome —
the value after a `complete`, the task's error after a `fail`. -/
theorem waitFor_timeout_preserves {T E : Type} (ch : CompletionChannel T E)
    (v : T) (e : E)
    (hp : ch.state = CompletionState.Pending) (hc : ch.completers ≠ 0) :
    wait_for ch = (Except.error ChannelError.TimedOut, ch) ∧
    wait (complete v ch).2 = some (Except.ok v) ∧
    wait (fail e ch).2 = some (Except.error (ChannelError.TaskFailed e)) := by
  refine ⟨?_, ?_, ?_⟩
  · simp [wait_for, hp, hc]
  · simp [complete, hp, wait]
  · simp [fail, hp, wait]

/-- Witness for C7: a Pending channel with one completer times out,
then yields 7 after completion. -/
theorem waitFor_timeout_preserves_witness :
    wait_for (⟨CompletionState.Pending, 1⟩ : CompletionChannel Nat Nat)
      = (Except.error ChannelError.TimedOut, ⟨CompletionState.Pending, 1⟩) ∧
    wait (complete 7 (⟨CompletionState.Pending, 1⟩ : CompletionChannel Nat Nat)).2
      = some (Except.ok 7) :=
  ⟨(waitFor_timeout_preserves (⟨CompletionState.Pending, 1⟩ : CompletionChannel Nat Nat)
      7 0 rfl (by simp)).1,
   (waitFor_timeout_preserves (⟨CompletionState.Pending, 1⟩ : CompletionChannel Nat Nat)
      7 0 rfl (by simp)).2.1⟩

/-- Draining a closed queue returns every queued item in order, then
`Closed`. -/
theorem SQueue.drain_closed {T : Type} (l : List T) :
    drainResults (⟨l, true⟩ : TaskQueue T) (l.length + 1)
      = l.map Except.ok ++ [Except.error QueueError.Closed] := by
  induction l with
  | nil => simp [drainResults, dequeue]
  | cons x xs ih => simpa [drainResults, dequeue] using ih

/-- C5: shutdown drains before closing: after `shutdown`, every
`enqueue` fails immediately with `Closed` and changes nothing;
repeated `dequeue` still returns all the already-queued tasks in FIFO
order and only then reports `Closed`; and in general `dequeue` reports
`Closed` exactly when the queue is both shut down and empty. -/
theorem shutdown_drains {T : Type} (l : List T) (c : Bool) (v : T) :
    enqueue (shutdown (⟨l, c⟩ : TaskQueue T)) v
        = (Except.error QueueError.Closed, shutdown (⟨l, c⟩ : TaskQueue T)) ∧
    drainResults (shutdown (⟨l, c⟩ : TaskQueue T)) (l.length + 1)
        = l.map Except.ok ++ [Except.error QueueError.Closed] ∧
    (∀ q : TaskQueue T,
      (dequeue q).1 = some (Except.error QueueError.Closed)
        ↔ q.items = [] ∧ q.closed = true) := by
  refine ⟨?_, ?_, ?_⟩
  · simp [enqueue, shutdown]
  · exact SQueue.drain_closed l
  · intro q
    obtain ⟨items, closed⟩ := q
    cases items with
    | nil => cases closed <;> simp [dequeue]
    | cons x xs => simp [dequeue]

/-- Witness for C5: the 5-task scenario — after shutdown with tasks
1..5 queued, a further enqueue of 6 fails with `Closed`, and the
consumer still dequeues 1..5 in order before seeing `Closed`. -/
theorem shutdown_drains_witness :
    enqueue (shutdown (⟨[1, 2, 3, 4, 5], false⟩ : TaskQueue Nat)) 6
        = (Except.error QueueError.Closed, shutdown (⟨[1, 2, 3, 4, 5], false⟩ : TaskQueue Nat)) ∧
    drainResults (shutdown (⟨[1, 2, 3, 4, 5], false⟩ : TaskQueue Nat)) 6
        = [Except.ok 1, Except.ok 2, Except.ok 3, Except.ok 4, Except.ok 5,
           Except.error QueueError.Closed] :=
  ⟨(shutdown_drains [1, 2, 3, 4, 5] false 6).1,
   (shutdown_drains [1, 2, 3, 4, 5] false 6).2.1⟩

/-- The worker loop completes one channel per dequeued job: it never
terminates early. -/
theorem Worker.length_workerLoop {T E : Type} (jobs : List (Job T E)) :
    (workerLoop jobs).length = jobs.length := by
  induction jobs with
  | nil => rfl
  | cons j rest ih => simpa [workerLoop] using ih

/-- C6: task failures are captured, not fatal: when a job's task
raises error `e` and its channel is Pending, the worker loop still
processes the remaining jobs (one completed channel per job — the loop
does not terminate); the failing job's channel ends up `Failed e`; and
`wait` on it returns the `TaskFailed e` error — the same kind the task
raised — rather than a crash. -/
theorem worker_captures_failures {T E : Type} (jobs : List (Job T E))
    (j : Job T E) (e : E)
    (h1 : j.task = Except.error e)
    (h2 : j.channel.state = Channel.CompletionState.Pending) :
    workerLoop (j :: jobs) = workerStep j :: workerLoop jobs ∧
    (workerLoop (j :: jobs)).length = jobs.length + 1 ∧
    (workerStep j).state = Channel.CompletionState.Failed e ∧
    Channel.wait (workerStep j)
      = some (Except.error (Channel.ChannelError.TaskFailed e)) := by
  obtain ⟨tsk, st, n⟩ := j
  simp only at h1 h2
  subst h1
  subst h2
  refine ⟨rfl, ?_, ?_, ?_⟩
  · simpa [workerLoop] using Worker.length_workerLoop jobs
  · simp [workerStep, Channel.fail]
  · simp [workerStep, Channel.fail, Channel.wait]

/-- Witness for C6: a task raising `DivisionByZero` followed by one
more job; its awaiter observes `TaskFailed DivisionByZero`. -/
theorem worker_captures_failures_witness :
    Channel.wait (workerStep (⟨Except.error TaskError.DivisionByZero,
        ⟨Channel.CompletionState.Pending, 1⟩⟩ : Job Nat TaskError))
      = some (Except.error (Channel.ChannelError.TaskFailed TaskError.DivisionByZero)) :=
  (worker_captures_failures
    [⟨Except.ok 3, ⟨Channel.CompletionState.Pending, 1⟩⟩]
    (⟨Except.error TaskError.DivisionByZero,
        ⟨Channel.CompletionState.Pending, 1⟩⟩ : Job Nat TaskError)
    TaskError.DivisionByZero rfl rfl).2.2.2

end Theorems
